import Mathlib

/-
Verification of the cheap-cache TCP server (src/cheap_cache_server.ts).

The development shallowly embeds the cache engine, the connection registry
and the per-command dispatch of `handleConnection`.  Time is an explicit
`Nat` of milliseconds (the program's `Date.now()`), machine numbers are
`Nat`/`Int`, and the fallible pieces (TTL parsing, the snapshot write)
are `Option`s / explicit success flags.  The third-party bounded LRU
collection (`jsr:@std/cache` `LruCache`) is modelled from the spec as a
recency-ordered association list, least-recently-used first.
-/

namespace CheapCache

/-! ### JS primitives used by the server: `parseInt`, `trim`, `split(/\s+/)` -/

/-- Numeric value of a list of decimal digit characters, most significant
first, as accumulated by JS `parseInt`. -/
def decVal (cs : List Char) : Nat :=
  cs.foldl (fun a c => 10 * a + (c.toNat - 48)) 0

/-- Numeric value of a list of hexadecimal digit characters. -/
def hexVal (cs : List Char) : Nat :=
  cs.foldl (fun a c =>
    16 * a + (if c.isDigit then c.toNat - 48
              else if c.val ≤ 90 then c.toNat - 55 else c.toNat - 87)) 0

/-- Longest decimal-digit prefix, `none` when empty (JS `parseInt` yields
`NaN` when no digit can be consumed). -/
def parseDigits (cs : List Char) : Option Nat :=
  let ds := cs.takeWhile Char.isDigit
  if ds.isEmpty then none else some (decVal ds)

/-- Longest hexadecimal-digit prefix, `none` when empty. -/
def parseHexDigits (cs : List Char) : Option Nat :=
  let ds := cs.takeWhile (fun c => c.isDigit || (97 ≤ c.val && c.val ≤ 102) || (65 ≤ c.val && c.val ≤ 70))
  if ds.isEmpty then none else some (hexVal ds)

/-- JS `parseInt` after the sign has been consumed: a `0x`/`0X` prefix
selects radix 16, otherwise the longest decimal prefix is taken. -/
def jsParseIntSigned (cs : List Char) : Option Nat :=
  match cs with
  | c0 :: c1 :: rest =>
    if c0 = '0' ∧ (c1 = 'x' ∨ c1 = 'X') then parseHexDigits rest
    else parseDigits cs
  | _ => parseDigits cs

/-- JS `parseInt(s)` (radix argument omitted) on a character list: skip
leading whitespace, consume an optional sign, then digits; `none` models
`NaN`.  (JS numbers are doubles; the tokens the server parses are far
below 2^53, where `parseInt` is exact.) -/
def jsParseIntCore (l : List Char) : Option Int :=
  match l.dropWhile Char.isWhitespace with
  | [] => none
  | c :: rest =>
    if c = '-' then (jsParseIntSigned rest).map (fun n => -(n : Int))
    else if c = '+' then (jsParseIntSigned rest).map (fun n => (n : Int))
    else (jsParseIntSigned (c :: rest)).map (fun n => (n : Int))

/-- JS `parseInt(s)` on a string. -/
def jsParseInt (s : String) : Option Int :=
  jsParseIntCore s.data

/-- Modelled from the spec: a token that *is* an integer — an optional
sign followed by one or more decimal digits.  The spec's error clauses
for SET/LIMIT quantify over "non-integer" tokens; this definition gives
those words a precise reading to compare with the code's `parseInt`. -/
def intTokenCore (l : List Char) : Bool :=
  match l with
  | [] => false
  | c :: rest =>
    if c = '-' ∨ c = '+' then !rest.isEmpty && rest.all Char.isDigit
    else (c :: rest).all Char.isDigit

/-- Modelled from the spec: `s` is a decimal integer literal. -/
def isIntegerToken (s : String) : Bool := intTokenCore s.data

/-- Value of an integer token (sign times digit value). -/
def tokenValCore (l : List Char) : Int :=
  match l with
  | [] => 0
  | c :: rest =>
    if c = '-' then -(decVal rest : Int)
    else if c = '+' then (decVal rest : Int)
    else (decVal (c :: rest) : Int)

/-- Value of an integer token. -/
def tokenVal (s : String) : Int := tokenValCore s.data

/-- JS `String.prototype.trim` (over the ASCII whitespace the protocol
uses): drop whitespace from both ends. -/
def jsTrim (s : String) : String :=
  String.mk (((s.data.dropWhile Char.isWhitespace).reverse.dropWhile Char.isWhitespace).reverse)

/-- Accumulating splitter: groups maximal runs of non-whitespace
characters, discarding whitespace. -/
def wsTokensAux : List Char → List Char → List (List Char)
  | [], cur => if cur.isEmpty then [] else [cur.reverse]
  | c :: rest, cur =>
    if c.isWhitespace then
      if cur.isEmpty then wsTokensAux rest [] else cur.reverse :: wsTokensAux rest []
    else wsTokensAux rest (c :: cur)

/-- JS `t.split(/\s+/)` for a trimmed string `t`: the empty string yields
`[""]` (one empty token — this is how an all-whitespace request reaches
the command switch), a non-empty trimmed string yields its whitespace
separated tokens. -/
def jsSplitTrimmed (s : String) : List String :=
  if s.data.isEmpty then [""] else (wsTokensAux s.data []).map String.mk

/-- JS `String.prototype.toUpperCase` on the ASCII command names the
protocol uses: uppercase each character. -/
def jsToUpper (s : String) : String :=
  String.mk (s.data.map Char.toUpper)

/-! ### The LRU+TTL cache (`cache`, `setCache`, `getCache`, `dumpCache`)

`src/cheap_cache_server.ts` stores entries `{ value, expireAt }` in an
`LruCache<string, …>` from `jsr:@std/cache@0.2.0`.  Modelled from the
spec (§3 RecencyIndex, §4.1, §9: the third-party bounded collection is
to be treated as an explicit recency-ordered structure): the cache is a
capacity plus an association list ordered by recency, least-recently-used
first; `set` re-inserts at the most-recently-used end and then evicts
from the least-recently-used end while over capacity; `get` re-inserts
at the most-recently-used end.  The `expireIn` option the server passes
to `set` is soft (the server re-checks `expireAt` itself, see the
comment at `getCache` in the source) and is not modelled. -/

/-- A cache entry: `{ value: string; expireAt: number }` with `expireAt`
an absolute time in milliseconds. -/
structure Entry where
  value : String
  expireAt : Nat
deriving DecidableEq, Repr

/-- The cache: mutable capacity `maxCacheItems` plus the recency-ordered
entries, least-recently-used first, most-recently-used last. -/
structure Cache where
  maxItems : Nat
  entries : List (String × Entry)
deriving DecidableEq, Repr

/-- Remove every binding of key `k` (on reachable states keys are
unique, as in a JS `Map`). -/
def eraseKey (l : List (String × Entry)) (k : String) : List (String × Entry) :=
  l.filter (fun q => !(q.1 == k))

/-- Key lookup, ignoring recency and expiry. -/
def lookup (c : Cache) (k : String) : Option Entry :=
  (c.entries.find? (fun q => q.1 == k)).map (·.2)

/-- `LruCache.set`: re-insert the key at the most-recently-used end,
then prune from the least-recently-used end down to capacity. -/
def lruSet (c : Cache) (k : String) (e : Entry) : Cache :=
  let l := eraseKey c.entries k ++ [(k, e)]
  ⟨c.maxItems, l.drop (l.length - c.maxItems)⟩

/-- `LruCache.get`: on a hit, the value together with the cache with the
key moved to the most-recently-used end. -/
def lruGet (c : Cache) (k : String) : Option (Entry × Cache) :=
  match c.entries.find? (fun q => q.1 == k) with
  | none => none
  | some p => some (p.2, ⟨c.maxItems, eraseKey c.entries k ++ [(k, p.2)]⟩)

/-- `LruCache.delete`. -/
def Cache.deleteKey (c : Cache) (k : String) : Cache :=
  ⟨c.maxItems, eraseKey c.entries k⟩

/-- `LruCache.resize` combined with `maxCacheItems = sizeItems` (the
LIMIT handler sets both): install the new capacity and evict from the
least-recently-used end until the size fits. -/
def Cache.resize (c : Cache) (m : Nat) : Cache :=
  ⟨m, c.entries.drop (c.entries.length - m)⟩

/-- `MAX_TTL_MS = 30 * 24 * 60 * 60 * 1000` — maximum TTL, 30 days in
milliseconds. -/
def MAX_TTL_MS : Nat := 30 * 24 * 60 * 60 * 1000

/-- The TTL (milliseconds) `setCache` computes:
`ttl_seconds <= 0 || ttl_seconds > MAX_TTL_MS / 1000 ? MAX_TTL_MS :
ttl_seconds * 1000`. -/
def ttlMsOf (t : Int) : Nat :=
  if t ≤ 0 ∨ 2592000 < t then MAX_TTL_MS else 1000 * t.toNat

/-- `setCache(key, value, ttl_seconds)` at time `nw`: caps the TTL and
stores `{ value, expireAt: now() + ttl }` via `cache.set`. -/
def setCache (c : Cache) (nw : Nat) (key value : String) (ttl_seconds : Int) : Cache :=
  lruSet c key ⟨value, nw + ttlMsOf ttl_seconds⟩

/-- `getCache(key)` at time `nw`: `cache.get` (a recency-refreshing hit
even when expired), then the manual expiry check — an entry with
`expireAt <= now()` is deleted and `null` is returned. -/
def getCache (c : Cache) (nw : Nat) (key : String) : Cache × Option String :=
  match lruGet c key with
  | none => (c, none)
  | some (e, c2) =>
    if e.expireAt ≤ nw then (c2.deleteKey key, none) else (c2, some e.value)

/-- `Math.round(d / 1000)` for a nonnegative integer `d` of
milliseconds: `⌊d/1000 + 1/2⌋ = (d + 500) / 1000` in `Nat` division. -/
def jsRound1000 (d : Nat) : Nat := (d + 500) / 1000

/-- The scan inside `dumpCache` at time `nw`: walk the entries in
recency order; a live entry (`expireAt > currentTime`) is kept and
reported with `ttl: Math.round((expireAt - currentTime) / 1000)`, an
expired one is deleted from the cache and excluded from the dump. -/
def dumpScan (nw : Nat) : List (String × Entry) → List (String × Entry) × List (String × String × Nat)
  | [] => ([], [])
  | (k, e) :: rest =>
    let r := dumpScan nw rest
    if nw < e.expireAt then ((k, e) :: r.1, (k, e.value, jsRound1000 (e.expireAt - nw)) :: r.2)
    else r

/-- One pass of the body of `startCleanupLoop` at time `nw`: delete
every entry with `expireAt <= currentTime`. -/
def cleanupSweep (c : Cache) (nw : Nat) : Cache :=
  ⟨c.maxItems, c.entries.filter (fun p => nw < p.2.expireAt)⟩

/-- The server's initial cache: `maxCacheItems = 10000`, empty. -/
def initCache : Cache := ⟨10000, []⟩

/-! ### Command dispatch (`handleConnection`'s switch) -/

/-- Replies the server writes: `+OK`, `-ERR msg`, a bulk value, or the
null bulk `$-1` (which `sendBulkString` also emits for the falsy empty
string). -/
inductive Reply where
  | ok
  | err (msg : String)
  | bulk (s : String)
  | nullBulk
deriving DecidableEq, Repr

/-- `sendBulkString(conn, s)`: `null` and the (falsy) empty string give
the null bulk reply, any other string is sent length-prefixed. -/
def bulkReply : Option String → Reply
  | none => .nullBulk
  | some s => if s = "" then .nullBulk else .bulk s

/-- Observable outcome of handling one buffered request: the cache
afterwards, the reply written to the client (`none` when an exception
escapes before a reply is sent), whether the per-connection loop keeps
running, the outbound replication messages opened towards a peer, and
the snapshot file written. -/
structure Step where
  cache : Cache
  reply : Option Reply
  connOpen : Bool
  outbound : List String
  dumpFile : Option String
deriving DecidableEq, Repr

/-- An error reply leaves the cache alone and keeps the connection
open. -/
def errStep (c : Cache) (msg : String) : Step :=
  ⟨c, some (.err msg), true, [], none⟩

/-- The `switch (cmd)` of `handleConnection` on the whitespace-split
parts of one request, at time `nw`.  `writeOk` is the outcome of the
`Deno.writeTextFile` call a DUMP performs: when it fails, the exception
escapes the `while` loop to the outer `catch`/`finally`, so no reply is
sent and the connection is closed (after `connCache.delete(id)`).  The
server opens no outbound connections anywhere in this switch, hence
`outbound = []` in every branch. -/
def dispatch (c : Cache) (nw : Nat) (writeOk : Bool) (parts : List String) : Step :=
  let cmd := jsToUpper (parts.headD "")
  if cmd = "SET" then
    match parts with
    | [_, key, value, ttlStr] =>
      match jsParseInt ttlStr with
      | none => errStep c "invalid TTL"
      | some ttl => ⟨setCache c nw key value ttl, some .ok, true, [], none⟩
    | _ => errStep c "SET requires key, value, and ttl"
  else if cmd = "GET" then
    match parts with
    | [_, key] =>
      let r := getCache c nw key
      ⟨r.1, some (bulkReply r.2), true, [], none⟩
    | _ => errStep c "GET requires a key"
  else if cmd = "DUMP" then
    let filename := match parts[1]? with
      | some f => if f = "" then "cheap_cache_dump.json" else f
      | none => "cheap_cache_dump.json"
    let r := dumpScan nw c.entries
    if writeOk then ⟨⟨c.maxItems, r.1⟩, some .ok, true, [], some filename⟩
    else ⟨⟨c.maxItems, r.1⟩, none, false, [], none⟩
  else if cmd = "LIMIT" then
    match parts with
    | [_, sizeItemsStr] =>
      match jsParseInt sizeItemsStr with
      | none => errStep c "invalid size (must be a positive integer)"
      | some m =>
        if m ≤ 0 then errStep c "invalid size (must be a positive integer)"
        else ⟨c.resize m.toNat, some .ok, true, [], none⟩
    | _ => errStep c "LIMIT requires size in number of items"
  else errStep c "unknown command"

/-- Handling one decoded request:
`command = decode(bytes).trim(); parts = command.split(/\s+/)`, then the
switch. -/
def handleCommand (c : Cache) (nw : Nat) (writeOk : Bool) (msg : String) : Step :=
  dispatch c nw writeOk (jsSplitTrimmed (jsTrim msg))

/-! ### Replication (src/MASTER_SLAVE_REPLICATION.md) -/

/-- `NODE_ROLE`. -/
inductive Role where
  | master
  | slave
deriving DecidableEq, Repr

/-- Embedding of `replicateToSlave(key, value, ttl)` from the
repository's replication design document `MASTER_SLAVE_REPLICATION.md`:
a slave returns immediately; a master opens one outbound connection to
`(SLAVE_HOST, SLAVE_PORT)`, writes a single `SET key value ttl` line and
closes it (failures are logged and swallowed, so the result is the list
of attempted outbound wire messages). -/
def replicateToSlave (role : Role) (key value : String) (ttl : Int) : List String :=
  match role with
  | .slave => []
  | .master => ["SET " ++ key ++ " " ++ value ++ " " ++ toString ttl ++ "\n"]

/-! ### Reachable cache states

Every mutation of `cache` in the program happens either in the command
switch or in the cleanup loop, so the reachable states are the results
of running a sequence of these events from the initial empty cache. -/

/-- One cache-mutating event: a client request handled at some time, or
one sweep of the cleanup loop. -/
inductive Event where
  | msg (m : String) (nw : Nat) (writeOk : Bool)
  | sweep (nw : Nat)

/-- Apply one event to the cache. -/
def applyEvent (c : Cache) : Event → Cache
  | .msg m nw w => (handleCommand c nw w m).cache
  | .sweep nw => cleanupSweep c nw

/-- Run a sequence of events. -/
def runEvents (c : Cache) (es : List Event) : Cache :=
  es.foldl applyEvent c

/-! ### The connection registry (`connCache`, the accept loop, the
`finally` block) -/

/-- The registry of live connections: `connCache` (an
`LruCache<number, Deno.Conn>` of capacity `MAX_CONNECTIONS` whose
`onEviction` callback closes the evicted connection, ignoring errors),
`nextConnId`, and — as the observable trace of evictions — the handles
closed so far, oldest first.  Connection handles are modelled as
numbers; entries are least-recently-used first. -/
structure Registry where
  maxConns : Nat
  conns : List (Nat × Nat)
  nextId : Nat
  closed : List Nat
deriving DecidableEq, Repr

/-- The accept loop's `const id = nextConnId++; connCache.set(id, conn)`:
insert the new connection at the most-recently-used end, then prune from
the least-recently-used end to capacity, closing each evicted handle via
`onEviction`. -/
def register (r : Registry) (h : Nat) : Registry :=
  let l := (r.conns.filter (fun p => !(p.1 == r.nextId))) ++ [(r.nextId, h)]
  let k := l.length - r.maxConns
  ⟨r.maxConns, l.drop k, r.nextId + 1, r.closed ++ (l.take k).map (·.2)⟩

/-- The handler's `finally` block: `connCache.delete(id)` (a plain map
delete — no eviction callback fires). -/
def deregister (r : Registry) (i : Nat) : Registry :=
  ⟨r.maxConns, r.conns.filter (fun p => !(p.1 == i)), r.nextId, r.closed⟩

/-- One registry-mutating event. -/
inductive RegEvent where
  | accept (h : Nat)
  | disconnect (i : Nat)

/-- Apply one registry event. -/
def applyRegEvent (r : Registry) : RegEvent → Registry
  | .accept h => register r h
  | .disconnect i => deregister r i

/-- The registry at start-up: `MAX_CONNECTIONS = 1000`, no connections,
`nextConnId = 1`. -/
def initRegistry : Registry := ⟨1000, [], 1, []⟩

/-- Run a sequence of registry events. -/
def runRegEvents (r : Registry) (es : List RegEvent) : Registry :=
  es.foldl applyRegEvent r

/-- Modelled from the spec: the expiry formula the spec states for
`set`, `expireAt = now + min(max(ttlSeconds,1), MAX_TTL)`, in
milliseconds. -/
def specExpireAt (nw : Nat) (t : Int) : Int :=
  (nw : Int) + 1000 * min (max t 1) 2592000

/-! ### Helper lemmas -/

/-- A decimal digit is not whitespace. -/
lemma digit_not_ws {c : Char} (h : c.isDigit = true) : c.isWhitespace = false := by
  rcases hc : c.isWhitespace with _ | _
  · rfl
  · exfalso
    have hmem : ((c = ' ' ∨ c = '\t') ∨ c = '\r') ∨ c = '\n' := by
      simpa [Char.isWhitespace] using hc
    rcases hmem with ((rfl | rfl) | rfl) | rfl <;> exact absurd h (by decide)

/-- A decimal digit is neither `x` nor `X`. -/
lemma digit_ne_x {c : Char} (h : c.isDigit = true) : ¬(c = 'x' ∨ c = 'X') := by
  rintro (rfl | rfl) <;> exact absurd h (by decide)

/-- `takeWhile` keeps a list all of whose elements satisfy the
predicate. -/
lemma takeWhile_of_all {p : Char → Bool} {l : List Char} (h : l.all p = true) :
    l.takeWhile p = l := by
  induction l with
  | nil => rfl
  | cons c cs ih =>
    simp only [List.all_cons, Bool.and_eq_true] at h
    simp [List.takeWhile_cons, h.1, ih h.2]

/-- `parseDigits` consumes a non-empty all-digit list whole. -/
lemma parseDigits_all {l : List Char} (hne : l ≠ []) (h : l.all Char.isDigit = true) :
    parseDigits l = some (decVal l) := by
  unfold parseDigits
  rw [takeWhile_of_all h]
  simp [List.isEmpty_iff, hne]

/-- `jsParseIntSigned` consumes a non-empty all-digit list whole. -/
lemma jsParseIntSigned_all {l : List Char} (hne : l ≠ []) (h : l.all Char.isDigit = true) :
    jsParseIntSigned l = some (decVal l) := by
  match l, hne with
  | [c0], _ => exact parseDigits_all (by simp) h
  | c0 :: c1 :: rest, _ =>
    have h1 : c1.isDigit = true := by
      simp only [List.all_cons, Bool.and_eq_true] at h
      exact h.2.1
    show (if c0 = '0' ∧ (c1 = 'x' ∨ c1 = 'X') then parseHexDigits rest
          else parseDigits (c0 :: c1 :: rest)) = some (decVal (c0 :: c1 :: rest))
    rw [if_neg (by rintro ⟨-, hx⟩; exact digit_ne_x h1 hx)]
    exact parseDigits_all (by simp) h

/-- The bridge between the spec's words and the code's `parseInt`: on a
token that *is* a decimal integer literal, `parseInt` succeeds and
returns its value. -/
theorem jsParseIntCore_of_intTokenCore {l : List Char} (h : intTokenCore l = true) :
    jsParseIntCore l = some (tokenValCore l) := by
  match l with
  | [] => exact absurd h (by decide)
  | c :: rest =>
    have hcore : (if c = '-' ∨ c = '+' then !rest.isEmpty && rest.all Char.isDigit
                  else (c :: rest).all Char.isDigit) = true := h
    by_cases hsign : c = '-' ∨ c = '+'
    · have h2 : rest ≠ [] ∧ rest.all Char.isDigit = true := by
        rw [if_pos hsign] at hcore
        simpa [List.isEmpty_iff] using hcore
      have hrest := jsParseIntSigned_all h2.1 h2.2
      rcases hsign with rfl | rfl
      · simp +decide [jsParseIntCore, tokenValCore, List.dropWhile_cons, hrest]
      · simp +decide [jsParseIntCore, tokenValCore, List.dropWhile_cons, hrest]
    · have hall : (c :: rest).all Char.isDigit = true := by
        rwa [if_neg hsign] at hcore
      push_neg at hsign
      have hdig : c.isDigit = true := by
        simp only [List.all_cons, Bool.and_eq_true] at hall
        exact hall.1
      have hws : c.isWhitespace = false := digit_not_ws hdig
      have hrest := jsParseIntSigned_all (l := c :: rest) (by simp) hall
      simp [jsParseIntCore, tokenValCore, List.dropWhile_cons, hws, hsign.1, hsign.2, hrest]

/-- The bridge between the spec's words and the code's `parseInt`: on a
token that *is* a decimal integer literal, `parseInt` succeeds and
returns its value. -/
theorem jsParseInt_of_intToken {s : String} (h : isIntegerToken s = true) :
    jsParseInt s = some (tokenVal s) :=
  jsParseIntCore_of_intTokenCore h

/-- Erasing a key that is not present changes nothing. -/
lemma eraseKey_of_lookup_none {c : Cache} {k : String} (h : lookup c k = none) :
    eraseKey c.entries k = c.entries := by
  unfold lookup at h
  have hf : c.entries.find? (fun q => q.1 == k) = none := by
    cases hc : c.entries.find? (fun q => q.1 == k) <;> simp [hc] at h ⊢
  rw [List.find?_eq_none] at hf
  exact List.filter_eq_self.mpr (fun p hp => by simpa using hf p hp)

/-- A successful `lookup` pins down the `find?` result: the pair found
is the key paired with the entry returned. -/
lemma find?_of_lookup_some {c : Cache} {k : String} {e : Entry}
    (h : lookup c k = some e) :
    c.entries.find? (fun q => q.1 == k) = some (k, e) := by
  unfold lookup at h
  rcases hf : c.entries.find? (fun q => q.1 == k) with - | p
  · rw [hf] at h; exact absurd h (by simp)
  · rcases p with ⟨p1, p2⟩
    have hk : p1 = k := by simpa using List.find?_some hf
    rw [hf] at h
    simp only [Option.map_some'] at h
    have he : p2 = e := Option.some.inj h
    rw [hk, he] at hf
    exact hf

/-- A found key makes `eraseKey` strictly shorter. -/
lemma length_eraseKey_lt {l : List (String × Entry)} {k : String} {p : String × Entry}
    (h : l.find? (fun q => q.1 == k) = some p) :
    (eraseKey l k).length < l.length := by
  induction l with
  | nil => simp at h
  | cons a as ih =>
    unfold eraseKey at ih ⊢
    by_cases ha : (a.1 == k) = true
    · have := List.length_filter_le (fun q => !(q.1 == k)) as
      simp only [List.filter_cons, ha, Bool.not_true, List.length_cons, if_neg]
      simp only [Bool.false_eq_true, if_false]
      omega
    · have ha' : (a.1 == k) = false := by simpa using ha
      rw [List.find?_cons, ha'] at h
      have := ih h
      simp only [List.filter_cons, ha', Bool.not_false, if_pos, List.length_cons]
      simpa using Nat.succ_lt_succ this

/-- No key `k` survives in `eraseKey l k`. -/
lemma find?_eraseKey (l : List (String × Entry)) (k : String) :
    (eraseKey l k).find? (fun q => q.1 == k) = none := by
  rw [List.find?_eq_none]
  intro p hp
  have := (List.mem_filter.mp hp).2
  simpa using this

/-- Erasing the same key twice is erasing it once, and the freshly
appended pair for that key is erased as well. -/
lemma eraseKey_eraseKey_append (l : List (String × Entry)) (k : String) (e : Entry) :
    eraseKey (eraseKey l k ++ [(k, e)]) k = eraseKey l k := by
  unfold eraseKey
  rw [List.filter_append]
  simp [List.filter_filter]

/-- After `lruSet` with room (positive capacity), the key is stored with
exactly the entry given. -/
lemma lookup_lruSet_self (c : Cache) (k : String) (e : Entry) (h : 0 < c.maxItems) :
    lookup (lruSet c k e) k = some e := by
  simp only [lookup, lruSet]
  have hlen : (eraseKey c.entries k ++ [(k, e)]).length - c.maxItems ≤ (eraseKey c.entries k).length := by
    simp only [List.length_append, List.length_cons, List.length_nil]
    omega
  rw [List.drop_append_of_le_length hlen]
  rw [List.find?_append]
  have hnone : ((eraseKey c.entries k).drop ((eraseKey c.entries k ++ [(k, e)]).length - c.maxItems)).find?
      (fun q => q.1 == k) = none := by
    rw [List.find?_eq_none]
    intro p hp
    have hmem : p ∈ eraseKey c.entries k := List.mem_of_mem_drop hp
    have := (List.mem_filter.mp hmem).2
    simpa using this
  rw [hnone]
  simp

/-- `dumpScan` is the live-entry filter paired with its formatted
image: the cache keeps exactly the non-expired entries in their
original recency order, and the dump lists exactly those with the
rounded remaining TTL. -/
lemma dumpScan_eq (nw : Nat) (l : List (String × Entry)) :
    dumpScan nw l =
      (l.filter (fun p => nw < p.2.expireAt),
       (l.filter (fun p => nw < p.2.expireAt)).map
         (fun p => (p.1, p.2.value, jsRound1000 (p.2.expireAt - nw)))) := by
  induction l with
  | nil => rfl
  | cons a as ih =>
    rcases a with ⟨k, e⟩
    unfold dumpScan
    rw [ih]
    by_cases hl : nw < e.expireAt
    · simp [List.filter_cons, hl]
    · simp [List.filter_cons, hl]

/-- `lruSet` never leaves the cache above capacity. -/
lemma lruSet_length_le (c : Cache) (k : String) (e : Entry) :
    (lruSet c k e).entries.length ≤ c.maxItems := by
  simp only [lruSet, List.length_drop]
  omega

/-- `getCache` never grows the cache. -/
lemma getCache_length_le (c : Cache) (nw : Nat) (k : String) :
    (getCache c nw k).1.entries.length ≤ c.entries.length := by
  unfold getCache lruGet
  cases hf : c.entries.find? (fun q => q.1 == k) with
  | none => simp
  | some p =>
    have hlt := length_eraseKey_lt hf
    by_cases he : p.2.expireAt ≤ nw
    · simp only [if_pos he, Cache.deleteKey, eraseKey_eraseKey_append]
      omega
    · simp only [if_neg he, List.length_append, List.length_cons, List.length_nil]
      omega

/-- `getCache` keeps the capacity. -/
lemma getCache_maxItems (c : Cache) (nw : Nat) (k : String) :
    (getCache c nw k).1.maxItems = c.maxItems := by
  unfold getCache lruGet
  cases hf : c.entries.find? (fun q => q.1 == k) with
  | none => simp
  | some p =>
    by_cases he : p.2.expireAt ≤ nw
    · simp [if_pos he, Cache.deleteKey]
    · simp [if_neg he]

/-- `getCache` preserves the capacity bound. -/
lemma getCache_inv (c : Cache) (nw : Nat) (k : String)
    (h : c.entries.length ≤ c.maxItems) :
    (getCache c nw k).1.entries.length ≤ (getCache c nw k).1.maxItems := by
  have h1 := getCache_length_le c nw k
  rw [getCache_maxItems c nw k]
  omega

/-- Every branch of the command switch preserves the capacity bound. -/
lemma dispatch_inv (c : Cache) (nw : Nat) (w : Bool) (parts : List String)
    (h : c.entries.length ≤ c.maxItems) :
    (dispatch c nw w parts).cache.entries.length ≤ (dispatch c nw w parts).cache.maxItems := by
  have hfilt := List.length_filter_le (fun p : String × Entry => nw < p.2.expireAt) c.entries
  simp only [dispatch, errStep]
  repeat' split
  all_goals first
    | exact h
    | exact lruSet_length_le c _ _
    | exact getCache_inv c nw _ h
    | (simp only [Cache.resize, List.length_drop]; omega)
    | (simp only [dumpScan_eq]; omega)

/-- Every event — a handled request or a cleanup sweep — preserves the
capacity bound. -/
lemma applyEvent_inv (c : Cache) (e : Event) (h : c.entries.length ≤ c.maxItems) :
    (applyEvent c e).entries.length ≤ (applyEvent c e).maxItems := by
  cases e with
  | msg m nw w => exact dispatch_inv c nw w _ h
  | sweep nw =>
    have := List.length_filter_le (fun p : String × Entry => nw < p.2.expireAt) c.entries
    simp only [applyEvent, cleanupSweep]
    omega

/-- The capacity bound holds in every reachable cache state. -/
lemma runEvents_inv (es : List Event) (c : Cache) (h : c.entries.length ≤ c.maxItems) :
    (runEvents c es).entries.length ≤ (runEvents c es).maxItems := by
  induction es generalizing c with
  | nil => exact h
  | cons e es ih => exact ih (applyEvent c e) (applyEvent_inv c e h)

/-- Inserting a fresh key into a cache exactly at (positive) capacity
evicts the head — the least-recently-used entry — and nothing else. -/
lemma lruSet_evicts_head (c : Cache) (k : String) (e : Entry)
    (hcap : c.entries.length = c.maxItems) (hnew : lookup c k = none)
    (hpos : 0 < c.maxItems) :
    (lruSet c k e).entries = c.entries.tail ++ [(k, e)]
    ∧ (lruSet c k e).maxItems = c.maxItems := by
  refine ⟨?_, rfl⟩
  simp only [lruSet]
  rw [eraseKey_of_lookup_none hnew]
  have hlen : (c.entries ++ [(k, e)]).length - c.maxItems = 1 := by
    simp only [List.length_append, List.length_cons, List.length_nil]
    omega
  rw [hlen]
  rcases hc : c.entries with - | ⟨a, as⟩
  · rw [hc] at hcap
    simp only [List.length_nil] at hcap
    omega
  · simp

/-- `lruSet` with positive capacity leaves the key at the
most-recently-used end. -/
lemma lruSet_getLast (c : Cache) (k : String) (e : Entry) (hpos : 0 < c.maxItems) :
    (lruSet c k e).entries.getLast? = some (k, e) := by
  simp only [lruSet]
  have hlen : (eraseKey c.entries k ++ [(k, e)]).length - c.maxItems
      ≤ (eraseKey c.entries k).length := by
    simp only [List.length_append, List.length_cons, List.length_nil]
    omega
  rw [List.drop_append_of_le_length hlen]
  exact List.getLast?_concat _

/-! ### Claims -/

/-- C2 (counterexample). The claim's two halves contradict each other at
`ttlSeconds = 0`: the code (and the claim's first half) clamps to
`MAX_TTL`, storing expiry `now + MAX_TTL_MS = 2592000000` ms, while the
spec formula `now + min(max(ttlSeconds,1), MAX_TTL)` the claim also
asserts gives `now + 1000` ms (a one-second TTL).  Shown at `now = 0`,
`SET k v 0` on an empty cache of capacity 10. -/
theorem C2_spec_formula_mismatch :
    lookup (setCache ⟨10, []⟩ 0 "k" "v" 0) "k" = some ⟨"v", MAX_TTL_MS⟩
    ∧ specExpireAt 0 0 = 1000
    ∧ (MAX_TTL_MS : Int) ≠ specExpireAt 0 0 := by
  refine ⟨by decide, by decide, by decide⟩

/-- C2 (amended). `setCache` stores expiry `now + ttlMsOf t` where the
TTL is clamped to `MAX_TTL_MS` whenever `t ≤ 0` or `t > MAX_TTL` (30
days in seconds) and is `1000·t` milliseconds otherwise — i.e. the
clamping halves of the claim hold verbatim, but the stored expiry at
`t ≤ 0` is `now + MAX_TTL_MS`, not the spec formula's
`now + min(max(t,1), MAX_TTL)`. -/
theorem C2_ttl_clamped (c : Cache) (nw : Nat) (k v : String) (t : Int)
    (hpos : 0 < c.maxItems) :
    lookup (setCache c nw k v t) k = some ⟨v, nw + ttlMsOf t⟩
    ∧ ((t ≤ 0 ∨ 2592000 < t) → ttlMsOf t = MAX_TTL_MS)
    ∧ (0 < t → t ≤ 2592000 → (ttlMsOf t : Int) = 1000 * t) := by
  refine ⟨lookup_lruSet_self c k ⟨v, nw + ttlMsOf t⟩ hpos, ?_, ?_⟩
  · intro h
    unfold ttlMsOf
    rw [if_pos (by omega)]
  · intro h1 h2
    unfold ttlMsOf
    rw [if_neg (by omega)]
    push_cast [Int.toNat_of_nonneg (le_of_lt h1)]
    ring

/-- C2 witness: `SET k v 60` at time 5 on a cache of capacity 3 stores
expiry `5 + 60000`. -/
theorem C2_ttl_clamped_witness :
    lookup (setCache ⟨3, []⟩ 5 "k" "v" 60) "k" = some ⟨"v", 5 + ttlMsOf 60⟩
    ∧ ((60 : Int) ≤ 0 ∨ (2592000 : Int) < 60 → ttlMsOf 60 = MAX_TTL_MS)
    ∧ (0 < (60 : Int) → (60 : Int) ≤ 2592000 → (ttlMsOf 60 : Int) = 1000 * 60) :=
  C2_ttl_clamped ⟨3, []⟩ 5 "k" "v" 60 (by decide)

/-- C3. `getCache`: a missing key returns `null` and leaves the cache
alone; a present but expired key (`expireAt <= now`) is deleted and
`null` is returned; a live key's value is returned and the key moves to
the most-recently-used end, all other entries untouched in order. -/
theorem C3_getCache (cm ce cl : Cache) (nwm nwe nwl : Nat) (km ke kl : String)
    (ee el : Entry)
    (hmiss : lookup cm km = none)
    (hexp : lookup ce ke = some ee) (hexp2 : ee.expireAt ≤ nwe)
    (hlive : lookup cl kl = some el) (hlive2 : nwl < el.expireAt) :
    getCache cm nwm km = (cm, none)
    ∧ getCache ce nwe ke = (⟨ce.maxItems, eraseKey ce.entries ke⟩, none)
    ∧ getCache cl nwl kl = (⟨cl.maxItems, eraseKey cl.entries kl ++ [(kl, el)]⟩, some el.value) := by
  refine ⟨?_, ?_, ?_⟩
  · unfold getCache lruGet
    have hf : cm.entries.find? (fun q => q.1 == km) = none := by
      unfold lookup at hmiss
      cases hc : cm.entries.find? (fun q => q.1 == km) <;> simp [hc] at hmiss ⊢
    rw [hf]
  · unfold getCache lruGet
    rw [find?_of_lookup_some hexp]
    simp only [if_pos hexp2, Cache.deleteKey]
    rw [eraseKey_eraseKey_append]
  · unfold getCache lruGet
    rw [find?_of_lookup_some hlive]
    simp only
    rw [if_neg (by omega)]

/-- C3 witness: on the two-entry cache `[a ↦ (1, exp 100), b ↦ (2, exp 5)]`
at time 50, `x` is missing, `b` is expired and deleted, `a` is live,
returned and moved to the most-recently-used end. -/
theorem C3_getCache_witness :
    getCache ⟨10, [("a", ⟨"1", 100⟩), ("b", ⟨"2", 5⟩)]⟩ 50 "x"
      = (⟨10, [("a", ⟨"1", 100⟩), ("b", ⟨"2", 5⟩)]⟩, none)
    ∧ getCache ⟨10, [("a", ⟨"1", 100⟩), ("b", ⟨"2", 5⟩)]⟩ 50 "b"
      = (⟨10, eraseKey [("a", ⟨"1", 100⟩), ("b", ⟨"2", 5⟩)] "b"⟩, none)
    ∧ getCache ⟨10, [("a", ⟨"1", 100⟩), ("b", ⟨"2", 5⟩)]⟩ 50 "a"
      = (⟨10, eraseKey [("a", ⟨"1", 100⟩), ("b", ⟨"2", 5⟩)] "a" ++ [("a", ⟨"1", 100⟩)]⟩,
         some "1") :=
  C3_getCache ⟨10, [("a", ⟨"1", 100⟩), ("b", ⟨"2", 5⟩)]⟩
    ⟨10, [("a", ⟨"1", 100⟩), ("b", ⟨"2", 5⟩)]⟩
    ⟨10, [("a", ⟨"1", 100⟩), ("b", ⟨"2", 5⟩)]⟩
    50 50 50 "x" "b" "a" ⟨"2", 5⟩ ⟨"1", 100⟩
    (by decide) (by decide) (by decide) (by decide) (by decide)

/-- C7. The DUMP scan deletes exactly the expired entries
(`expireAt <= now`) and excludes them from the result; every surviving
key is reported with `remainingTtlSeconds = round((expireAt - now)/1000)`;
the surviving entries keep their relative recency order (the cache
afterwards is the order-preserving filter of the live entries), and the
DUMP command leaves the capacity unchanged. -/
theorem C7_dump (c : Cache) (nw : Nat) (writeOk : Bool) :
    dumpScan nw c.entries
      = (c.entries.filter (fun p => nw < p.2.expireAt),
         (c.entries.filter (fun p => nw < p.2.expireAt)).map
           (fun p => (p.1, p.2.value, jsRound1000 (p.2.expireAt - nw))))
    ∧ (dispatch c nw writeOk ["DUMP"]).cache
      = ⟨c.maxItems, c.entries.filter (fun p => nw < p.2.expireAt)⟩ := by
  refine ⟨dumpScan_eq nw c.entries, ?_⟩
  have hd := dumpScan_eq nw c.entries
  by_cases hw : writeOk
  · simp [dispatch, jsToUpper, hw, hd]
  · simp [dispatch, jsToUpper, hw, hd]

/-- C10. A request that trims to the empty string splits into `[""]`,
whose first token (the empty string) is not a known command, so the
server replies `-ERR unknown command`, leaves the cache alone and keeps
the connection open. -/
theorem C10_blank_request (c : Cache) (nw : Nat) (writeOk : Bool) (msg : String)
    (h : jsTrim msg = "") :
    jsSplitTrimmed (jsTrim msg) = [""]
    ∧ handleCommand c nw writeOk msg = errStep c "unknown command" := by
  have hsplit : jsSplitTrimmed (jsTrim msg) = [""] := by
    rw [h]; rfl
  refine ⟨hsplit, ?_⟩
  unfold handleCommand
  rw [hsplit]
  rfl

/-- C10 witness: the all-whitespace request `"  \t "`. -/
theorem C10_blank_request_witness :
    jsSplitTrimmed (jsTrim "  \t ") = [""]
    ∧ handleCommand ⟨10000, []⟩ 0 true "  \t " = errStep ⟨10000, []⟩ "unknown command" :=
  C10_blank_request ⟨10000, []⟩ 0 true "  \t " (by decide)

/-- C4. The CacheStore invariant: (1) in every state reachable from the
initial cache by handled requests and cleanup sweeps, the cache holds at
most `maxItems` entries; (2) a SET of a fresh key into a cache exactly
at (positive) capacity evicts exactly the least-recently-used entry (the
head of the recency order) and nothing else, appending the new key at
the most-recently-used end; (3) a SET leaves its key most-recently-used;
(4) a successful GET returns the stored value and leaves its key
most-recently-used. -/
theorem C4_capacity_and_lru_eviction
    (es : List Event)
    (c : Cache) (nw : Nat) (k v : String) (t : Int)
    (hcap : c.entries.length = c.maxItems) (hnew : lookup c k = none)
    (hpos : 0 < c.maxItems)
    (c2 : Cache) (nw2 : Nat) (k2 : String) (e2 : Entry)
    (hlook : lookup c2 k2 = some e2) (hlive : nw2 < e2.expireAt)
    (c3 : Cache) (nw3 : Nat) (k3 v3 : String) (t3 : Int) (hpos3 : 0 < c3.maxItems) :
    (runEvents initCache es).entries.length ≤ (runEvents initCache es).maxItems
    ∧ (setCache c nw k v t).entries = c.entries.tail ++ [(k, ⟨v, nw + ttlMsOf t⟩)]
    ∧ (setCache c nw k v t).maxItems = c.maxItems
    ∧ (setCache c3 nw3 k3 v3 t3).entries.getLast? = some (k3, ⟨v3, nw3 + ttlMsOf t3⟩)
    ∧ (getCache c2 nw2 k2).2 = some e2.value
    ∧ (getCache c2 nw2 k2).1.entries.getLast? = some (k2, e2) := by
  have hev := lruSet_evicts_head c k ⟨v, nw + ttlMsOf t⟩ hcap hnew hpos
  have hget : getCache c2 nw2 k2
      = (⟨c2.maxItems, eraseKey c2.entries k2 ++ [(k2, e2)]⟩, some e2.value) := by
    unfold getCache lruGet
    rw [find?_of_lookup_some hlook]
    simp only
    rw [if_neg (by omega)]
  refine ⟨runEvents_inv es initCache (by decide), hev.1, hev.2,
    lruSet_getLast c3 k3 ⟨v3, nw3 + ttlMsOf t3⟩ hpos3, ?_, ?_⟩
  · rw [hget]
  · rw [hget]
    exact List.getLast?_concat _

/-- C4 witness: no events; a full 2-entry cache receives a fresh key
`c` and evicts exactly `a`, the least-recently-used; `SET` leaves its
key most-recently-used; `GET b` at time 50 returns `2` and moves `b`
to the most-recently-used end. -/
theorem C4_capacity_and_lru_eviction_witness :
    (runEvents initCache []).entries.length ≤ (runEvents initCache []).maxItems
    ∧ (setCache ⟨2, [("a", ⟨"1", 900⟩), ("b", ⟨"2", 900⟩)]⟩ 0 "c" "3" 1).entries
      = [("a", ⟨"1", 900⟩), ("b", ⟨"2", 900⟩)].tail ++ [("c", ⟨"3", 0 + ttlMsOf 1⟩)]
    ∧ (setCache ⟨2, [("a", ⟨"1", 900⟩), ("b", ⟨"2", 900⟩)]⟩ 0 "c" "3" 1).maxItems = 2
    ∧ (setCache ⟨2, [("a", ⟨"1", 900⟩), ("b", ⟨"2", 900⟩)]⟩ 0 "c" "3" 1).entries.getLast?
      = some ("c", ⟨"3", 0 + ttlMsOf 1⟩)
    ∧ (getCache ⟨2, [("a", ⟨"1", 900⟩), ("b", ⟨"2", 900⟩)]⟩ 50 "b").2 = some "2"
    ∧ (getCache ⟨2, [("a", ⟨"1", 900⟩), ("b", ⟨"2", 900⟩)]⟩ 50 "b").1.entries.getLast?
      = some ("b", ⟨"2", 900⟩) :=
  C4_capacity_and_lru_eviction []
    ⟨2, [("a", ⟨"1", 900⟩), ("b", ⟨"2", 900⟩)]⟩ 0 "c" "3" 1
    (by decide) (by decide) (by decide)
    ⟨2, [("a", ⟨"1", 900⟩), ("b", ⟨"2", 900⟩)]⟩ 50 "b" ⟨"2", 900⟩
    (by decide) (by decide)
    ⟨2, [("a", ⟨"1", 900⟩), ("b", ⟨"2", 900⟩)]⟩ 0 "c" "3" 1 (by decide)

/-! Registry lemmas for C5. -/

/-- `register` never leaves the registry above capacity. -/
lemma register_length_le (r : Registry) (h : Nat) :
    (register r h).conns.length ≤ r.maxConns := by
  simp only [register, List.length_drop]
  omega

/-- Registry events preserve the capacity bound. -/
lemma applyRegEvent_inv (r : Registry) (e : RegEvent)
    (h : r.conns.length ≤ r.maxConns) :
    (applyRegEvent r e).conns.length ≤ (applyRegEvent r e).maxConns := by
  cases e with
  | accept hc => exact register_length_le r hc
  | disconnect i =>
    have := List.length_filter_le (fun p : Nat × Nat => !(p.1 == i)) r.conns
    simp only [applyRegEvent, deregister]
    omega

/-- Registry events keep every stored id below `nextId`. -/
lemma applyRegEvent_fresh (r : Registry) (e : RegEvent)
    (h : ∀ q ∈ r.conns, q.1 < r.nextId) :
    ∀ q ∈ (applyRegEvent r e).conns, q.1 < (applyRegEvent r e).nextId := by
  cases e with
  | accept hc =>
    intro q hq
    simp only [applyRegEvent, register] at hq ⊢
    have hq2 := List.mem_of_mem_drop hq
    rcases List.mem_append.mp hq2 with hmem | hmem
    · have := h q (List.mem_filter.mp hmem).1
      omega
    · simp only [List.mem_singleton] at hmem
      rw [hmem]
      omega
  | disconnect i =>
    intro q hq
    simp only [applyRegEvent, deregister] at hq ⊢
    exact h q (List.mem_filter.mp hq).1

/-- Both registry invariants hold in every reachable registry state. -/
lemma runRegEvents_inv (es : List RegEvent) (r : Registry)
    (h1 : r.conns.length ≤ r.maxConns) (h2 : ∀ q ∈ r.conns, q.1 < r.nextId) :
    (runRegEvents r es).conns.length ≤ (runRegEvents r es).maxConns
    ∧ ∀ q ∈ (runRegEvents r es).conns, q.1 < (runRegEvents r es).nextId := by
  induction es generalizing r with
  | nil => exact ⟨h1, h2⟩
  | cons e es ih =>
    exact ih (applyRegEvent r e) (applyRegEvent_inv r e h1) (applyRegEvent_fresh r e h2)

/-- C5. The ConnectionRegistry invariant: (1) every state reachable
from start-up by accepts and disconnects holds at most
`maxConnections` connections (and every stored id is below
`nextConnId`, so a fresh accept never collides); (2) registering a new
connection while exactly at (positive) capacity closes exactly one
handle — that of the least-recently-used entry, the head of the
recency order — removes that entry, and appends the new one at the
most-recently-used end. -/
theorem C5_registry_capacity_and_eviction
    (es : List RegEvent) (r : Registry) (h : Nat) (p : Nat × Nat)
    (rest : List (Nat × Nat))
    (hfresh : ∀ q ∈ r.conns, q.1 < r.nextId)
    (hcap : r.conns.length = r.maxConns)
    (hcs : r.conns = p :: rest) :
    ((runRegEvents initRegistry es).conns.length
        ≤ (runRegEvents initRegistry es).maxConns
      ∧ ∀ q ∈ (runRegEvents initRegistry es).conns,
          q.1 < (runRegEvents initRegistry es).nextId)
    ∧ register r h
      = ⟨r.maxConns, rest ++ [(r.nextId, h)], r.nextId + 1, r.closed ++ [p.2]⟩ := by
  refine ⟨runRegEvents_inv es initRegistry (by decide) (by decide), ?_⟩
  have hfilter : r.conns.filter (fun q => !(q.1 == r.nextId)) = r.conns := by
    refine List.filter_eq_self.mpr (fun q hq => ?_)
    have := hfresh q hq
    simp only [Bool.not_eq_true', beq_eq_false_iff_ne, ne_eq]
    omega
  have hfilter2 : (p :: rest).filter (fun q => !(q.1 == r.nextId)) = p :: rest := by
    rw [← hcs]; exact hfilter
  simp only [register, hcs, hfilter2]
  have hlen2 : (p :: (rest ++ [(r.nextId, h)])).length - r.maxConns = 1 := by
    rw [hcs] at hcap
    simp only [List.length_cons, List.length_append, List.length_nil] at hcap ⊢
    omega
  simp only [List.cons_append]
  rw [hlen2]
  simp

/-- C5 witness: a registry with capacity 1 holding connection id 3 with
handle 7; accepting handle 9 closes handle 7 and leaves only the new
connection. -/
theorem C5_registry_capacity_and_eviction_witness :
    ((runRegEvents initRegistry [.accept 7]).conns.length
        ≤ (runRegEvents initRegistry [.accept 7]).maxConns
      ∧ ∀ q ∈ (runRegEvents initRegistry [.accept 7]).conns,
          q.1 < (runRegEvents initRegistry [.accept 7]).nextId)
    ∧ register ⟨1, [(3, 7)], 4, []⟩ 9 = ⟨1, [] ++ [(4, 9)], 4 + 1, [] ++ [7]⟩ :=
  C5_registry_capacity_and_eviction [.accept 7] ⟨1, [(3, 7)], 4, []⟩ 9 (3, 7) []
    (by decide) (by decide) (by decide)

/-- C1. The server's SET handler (`src/cheap_cache_server.ts`, the file
the Dockerfile runs) performs no replication at all: a successful
`SET foo bar 60` replies `+OK` and opens zero outbound connections,
while the repository's own replication document
(`MASTER_SLAVE_REPLICATION.md`, embedded as `replicateToSlave`) says a
master forwards exactly one `SET foo bar 60` line to its peer (and a
slave forwards nothing). -/
theorem C1_set_without_replication :
    (dispatch initCache 0 true ["SET", "foo", "bar", "60"]).reply = some Reply.ok
    ∧ (dispatch initCache 0 true ["SET", "foo", "bar", "60"]).outbound = []
    ∧ replicateToSlave Role.master "foo" "bar" 60 = ["SET foo bar 60\n"]
    ∧ replicateToSlave Role.slave "foo" "bar" 60 = [] :=
  ⟨by decide, by decide, by decide, by decide⟩

/-- C6 (counterexample). A DUMP whose snapshot write fails sends *no*
reply (the claim demands an error reply), closes the connection (the
claim demands it stay open), and has already deleted the expired entry
`b` from the cache (the claim demands the cache be unaffected).  Input:
cache `[a ↦ (1, exp 100), b ↦ (2, exp 5)]` at time 50, command
`DUMP f.json`, write failing. -/
theorem C6_dump_failure_cex :
    (dispatch ⟨10, [("a", ⟨"1", 100⟩), ("b", ⟨"2", 5⟩)]⟩ 50 false ["DUMP", "f.json"]).reply
      = none
    ∧ (dispatch ⟨10, [("a", ⟨"1", 100⟩), ("b", ⟨"2", 5⟩)]⟩ 50 false ["DUMP", "f.json"]).connOpen
      = false
    ∧ (dispatch ⟨10, [("a", ⟨"1", 100⟩), ("b", ⟨"2", 5⟩)]⟩ 50 false ["DUMP", "f.json"]).cache
      = ⟨10, [("a", ⟨"1", 100⟩)]⟩ :=
  ⟨by decide, by decide, by decide⟩

/-- C6 (amended). When the snapshot write of a DUMP fails, the
exception escapes the command loop to the outer `catch`/`finally`: no
reply is sent for that command and the connection is closed (and
deregistered); the cache keeps exactly its non-expired entries in
order — live entries are unaffected, entries found expired during the
scan have been deleted. -/
theorem C6_dump_failure (c : Cache) (nw : Nat) (rest : List String) :
    dispatch c nw false ("DUMP" :: rest)
      = ⟨⟨c.maxItems, c.entries.filter (fun p => nw < p.2.expireAt)⟩, none, false, [], none⟩ := by
  simp +decide [dispatch, dumpScan_eq]

/-- C8 (counterexample). `"5x"` is not an integer token, yet
`LIMIT 5x` is accepted: `parseInt("5x") = 5`, so the server replies
`+OK` and sets the capacity to 5 — the claim requires an error reply
and an unchanged capacity for every non-integer size token. -/
theorem C8_nonint_size_cex :
    isIntegerToken "5x" = false
    ∧ dispatch ⟨10, [("a", ⟨"1", 100⟩)]⟩ 0 true ["LIMIT", "5x"]
      = ⟨⟨5, [("a", ⟨"1", 100⟩)]⟩, some .ok, true, [], none⟩ :=
  ⟨by decide, by decide⟩

/-- C8 (amended). `LIMIT tok` with `tok` a positive integer token of
value `m` sets the capacity to `m`, immediately evicts
least-recently-used entries until the size is at most `m` (the entries
become the most-recently-used suffix), and replies `+OK`; `LIMIT tokBad`
where `parseInt` fails on `tokBad` or yields a non-positive value
replies with an error and changes neither the capacity nor the
contents.  (The claim's "every non-integer … size token → error" had to
be weakened to "every token `parseInt` rejects or parses non-positive",
since `parseInt` accepts tokens like `5x`.) -/
theorem C8_limit (c : Cache) (nw : Nat) (w : Bool) (tok tokBad : String) (m : Int)
    (h1 : isIntegerToken tok = true) (h2 : tokenVal tok = m) (h3 : 0 < m)
    (hbad : jsParseInt tokBad = none ∨ ∃ mb, jsParseInt tokBad = some mb ∧ mb ≤ 0) :
    dispatch c nw w ["LIMIT", tok]
      = ⟨⟨m.toNat, c.entries.drop (c.entries.length - m.toNat)⟩, some .ok, true, [], none⟩
    ∧ (dispatch c nw w ["LIMIT", tok]).cache.entries.length ≤ m.toNat
    ∧ dispatch c nw w ["LIMIT", tokBad]
      = ⟨c, some (.err "invalid size (must be a positive integer)"), true, [], none⟩ := by
  have hp : jsParseInt tok = some m := by
    rw [jsParseInt_of_intToken h1, h2]
  have hmain : dispatch c nw w ["LIMIT", tok]
      = ⟨⟨m.toNat, c.entries.drop (c.entries.length - m.toNat)⟩, some .ok, true, [], none⟩ := by
    simp +decide [dispatch, hp, Cache.resize]
    omega
  refine ⟨hmain, ?_, ?_⟩
  · rw [hmain]
    simp only [List.length_drop]
    omega
  · rcases hbad with hb | ⟨mb, hb, hmb⟩
    · simp +decide [dispatch, errStep, hb]
    · simp +decide [dispatch, errStep, hb, hmb]

/-- C8 witness: `LIMIT 1` on a 2-entry cache of capacity 10 shrinks it
to the most-recently-used entry; `LIMIT abc` errors. -/
theorem C8_limit_witness :
    dispatch ⟨10, [("a", ⟨"1", 100⟩), ("b", ⟨"2", 200⟩)]⟩ 0 true ["LIMIT", "1"]
      = ⟨⟨(1 : Int).toNat,
          ([("a", ⟨"1", 100⟩), ("b", ⟨"2", 200⟩)] : List (String × Entry)).drop
            (([("a", ⟨"1", 100⟩), ("b", ⟨"2", 200⟩)] : List (String × Entry)).length
              - (1 : Int).toNat)⟩,
         some .ok, true, [], none⟩
    ∧ (dispatch ⟨10, [("a", ⟨"1", 100⟩), ("b", ⟨"2", 200⟩)]⟩ 0 true ["LIMIT", "1"]).cache.entries.length
      ≤ (1 : Int).toNat
    ∧ dispatch ⟨10, [("a", ⟨"1", 100⟩), ("b", ⟨"2", 200⟩)]⟩ 0 true ["LIMIT", "abc"]
      = ⟨⟨10, [("a", ⟨"1", 100⟩), ("b", ⟨"2", 200⟩)]⟩,
         some (.err "invalid size (must be a positive integer)"), true, [], none⟩ :=
  C8_limit ⟨10, [("a", ⟨"1", 100⟩), ("b", ⟨"2", 200⟩)]⟩ 0 true "1" "abc" 1
    (by decide) (by decide) (by decide) (Or.inl (by decide))

/-- C9 (counterexample). `"5x"` is not an integer token, yet
`SET k v 5x` succeeds: `parseInt("5x") = 5`, so the server replies
`+OK` and stores the key with a 5-second TTL — the claim requires an
error reply and an unchanged cache for every non-integer ttl token. -/
theorem C9_nonint_ttl_cex :
    isIntegerToken "5x" = false
    ∧ dispatch ⟨10, []⟩ 0 true ["SET", "k", "v", "5x"]
      = ⟨⟨10, [("k", ⟨"v", 5000⟩)]⟩, some .ok, true, [], none⟩ :=
  ⟨by decide, by decide⟩

/-- C9 (amended). Protocol errors: a SET whose ttl token `parseInt`
rejects replies `-ERR invalid TTL` with the cache unchanged; a SET or
GET with the wrong argument count replies with the corresponding
arity error; a command whose first token uppercases to none of
SET/GET/DUMP/LIMIT replies `-ERR unknown command`; in all these cases
the cache is untouched and the connection stays open (all four results
are `errStep`, which keeps the cache and `connOpen = true`).  (The
claim's "ttl token is not an integer → error" had to be weakened to
"ttl token `parseInt` rejects", since `parseInt` accepts tokens like
`5x`.) -/
theorem C9_protocol_errors (c : Cache) (nw : Nat) (w : Bool) (k v ts c1 : String)
    (setArgs getArgs rest : List String)
    (hts : jsParseInt ts = none)
    (hset : setArgs.length ≠ 3)
    (hget : getArgs.length ≠ 1)
    (hbad1 : jsToUpper c1 ≠ "SET") (hbad2 : jsToUpper c1 ≠ "GET")
    (hbad3 : jsToUpper c1 ≠ "DUMP") (hbad4 : jsToUpper c1 ≠ "LIMIT") :
    dispatch c nw w ["SET", k, v, ts] = errStep c "invalid TTL"
    ∧ dispatch c nw w ("SET" :: setArgs) = errStep c "SET requires key, value, and ttl"
    ∧ dispatch c nw w ("GET" :: getArgs) = errStep c "GET requires a key"
    ∧ dispatch c nw w (c1 :: rest) = errStep c "unknown command" := by
  refine ⟨by simp +decide [dispatch, hts], ?_, ?_, ?_⟩
  · rcases setArgs with - | ⟨a1, - | ⟨a2, - | ⟨a3, - | ⟨a4, rest4⟩⟩⟩⟩
    · simp +decide [dispatch]
    · simp +decide [dispatch]
    · simp +decide [dispatch]
    · exact absurd rfl hset
    · simp +decide [dispatch]
  · rcases getArgs with - | ⟨a1, - | ⟨a2, rest2⟩⟩
    · simp +decide [dispatch]
    · exact absurd rfl hget
    · simp +decide [dispatch]
  · simp only [dispatch, List.headD_cons]
    rw [if_neg hbad1, if_neg hbad2, if_neg hbad3, if_neg hbad4]

/-- C9 witness: `SET k v abc` → invalid TTL; `SET k` → arity error;
`GET` → arity error; `BOGUS x` → unknown command. -/
theorem C9_protocol_errors_witness :
    dispatch ⟨10, []⟩ 0 true ["SET", "k", "v", "abc"] = errStep ⟨10, []⟩ "invalid TTL"
    ∧ dispatch ⟨10, []⟩ 0 true ("SET" :: ["k"]) = errStep ⟨10, []⟩ "SET requires key, value, and ttl"
    ∧ dispatch ⟨10, []⟩ 0 true ("GET" :: []) = errStep ⟨10, []⟩ "GET requires a key"
    ∧ dispatch ⟨10, []⟩ 0 true ("BOGUS" :: ["x"]) = errStep ⟨10, []⟩ "unknown command" :=
  C9_protocol_errors ⟨10, []⟩ 0 true "k" "v" "abc" "BOGUS" ["k"] [] ["x"]
    (by decide) (by decide) (by decide) (by decide) (by decide) (by decide) (by decide)

end CheapCache
